import Mathlib

/-!
Verification of the replacement transformer
(`pkg/document/plugin/replacement/transformer.go`).

The Go code operates on YAML-decoded `interface{}` trees
(`map[string]interface{}`, `[]interface{}`, `string`, `int`, `bool`, `nil`)
and mutates them in place.  The embedding below represents such a tree as
the inductive type `Value`, represents a Go map as an association list in
which lookup and update act on the first occurrence of a key (Go maps have
unique keys), and turns in-place mutation into explicit state passing:
every mutating function returns the new container together with an
optional error, because the Go code's mutations persist even when an
error is returned.  Recursion in the mutator is not structurally
terminating in the source (it can genuinely diverge), so the mutator
takes an explicit fuel argument; `Err.outOfFuel` marks fuel exhaustion
and a result that is `outOfFuel` for every fuel models divergence.
Go runtime panics (out-of-range indexing, reflection on nil) are modelled
by the distinguished error `Err.goPanic`, which is not a value the Go
function ever returns - it marks a crash.
-/

/-- YAML-decoded Go `interface\x7b\x7d` tree: map, slice, string, int, bool or nil. -/
inductive Value where
  | str (s : String)
  | int (n : Int)
  | bool (b : Bool)
  | null
  | map (entries : List (String × Value))
  | seq (items : List Value)

/-- Errors of the transformer.  `badConfiguration`, `sourceNotFound`,
`targetNotFound`, `multipleResources`, `typeMismatch`, `indexOutOfBound`
and `patternSubstring` model the `Err...` types declared by the
replacement package; `atoiError` models the `strconv.Atoi` error that
`updateSliceField` returns verbatim; `fieldNotFound` models the error of
the external field lookup; `goPanic` models a Go runtime panic (a crash,
not a returned error); `outOfFuel` models exhaustion of the explicit
recursion fuel. -/
inductive Err where
  | badConfiguration (msg : String)
  | sourceNotFound
  | targetNotFound
  | multipleResources
  | typeMismatch
  | indexOutOfBound (index : Int) (length : Nat)
  | patternSubstring (msg : String)
  | atoiError (s : String)
  | fieldNotFound
  | goPanic (msg : String)
  | outOfFuel
deriving DecidableEq, Repr

/-- Go nil test `v == nil` on an `interface\x7b\x7d` value. -/
def Value.isNull : Value → Bool
  | .null => true
  | _ => false

/-- Go map read `m[k]`: first entry with the key (keys are unique in Go). -/
def lookupMap : List (String × Value) → String → Option Value
  | [], _ => none
  | (k', v') :: rest, k => if k' = k then some v' else lookupMap rest k

/-- Go map write `m[k] = v`: replace the first entry with the key, or append. -/
def mapSet : List (String × Value) → String → Value → List (String × Value)
  | [], k, v => [(k, v)]
  | (k', v') :: rest, k, v =>
    if k' = k then (k, v) :: rest else (k', v') :: mapSet rest k v

/-- Whitespace class of Go regexp `\s` (space, tab, newline, form feed, carriage return). -/
def isSpaceChar (c : Char) : Bool :=
  c == ' ' || c == '\t' || c == '\n' || c == '\x0c' || c == '\r'

/-- Length of the maximal non-whitespace prefix (the most a `\S+` group can take). -/
def npLen : List Char → Nat
  | [] => 0
  | c :: rest => if isSpaceChar c then 0 else npLen rest + 1

/-- Try `f` at k, k-1, ..., 1 and return the first hit: the descending
order realises the greedy (longest-first, backtracking) choice of a
`\S+` capture group. -/
def tryFrom (f : Nat → Option α) : Nat → Option α
  | 0 => none
  | k+1 =>
    match f (k+1) with
    | some r => some r
    | none => tryFrom f k

/-- Greedy match of `(\S+)\]` at the start of `cs`: the longest nonempty
non-whitespace prefix followed by a closing bracket. -/
def matchVal (cs : List Char) : Option (List Char) :=
  tryFrom (fun k => if cs.get? k = some ']' then some (cs.take k) else none) (npLen cs)

/-- Greedy match of `(\S+)=(\S+)\]` at the start of `cs`. -/
def matchKV (cs : List Char) : Option (List Char × List Char) :=
  tryFrom (fun k =>
    if cs.get? k = some '=' then
      match matchVal (cs.drop (k+1)) with
      | some v => some (cs.take k, v)
      | none => none
    else none) (npLen cs)

/-- Greedy match of `(\S+)\[(\S+)=(\S+)\]` anchored at the start of `cs`. -/
def matchSegAt (cs : List Char) : Option (List Char × List Char × List Char) :=
  tryFrom (fun k =>
    if cs.get? k = some '[' then
      match matchKV (cs.drop (k+1)) with
      | some kv => some (cs.take k, kv.1, kv.2)
      | none => none
    else none) (npLen cs)

/-- Leftmost match of the package-level regexp
`(\S+)\[(\S+)=(\S+)\]` (Go `FindStringSubmatch` semantics: leftmost
start, then greedy capture groups). -/
def findSubmatch : List Char → Option (List Char × List Char × List Char)
  | [] => none
  | c :: rest =>
    match matchSegAt (c :: rest) with
    | some r => some r
    | none => findSubmatch rest

/-- Model of `getFirstPathSegment`: decompose a path segment into
(field, key, value, isArray) via the array-predicate regexp.  When the
regexp does not match, the whole segment is the field and `isArray` is
false; when it matches, `isArray` is `groups[2] != ""` as in the source. -/
def getFirstPathSegment (path : String) : String × String × String × Bool :=
  match findSubmatch path.toList with
  | none => (path, "", "", false)
  | some (f, k, v) => (String.mk f, String.mk k, String.mk v, !(String.mk k).isEmpty)

/-- Rightmost split `body = g1 ++ % :: g2` with `g2` nonempty and
all non-whitespace: the backtracking choice of `(.+)%(\S+)%` just before
the final percent sign.  No nonemptiness constraint on `g1` here; the
caller checks it. -/
def splitLastPercent : List Char → Option (List Char × List Char)
  | [] => none
  | c :: rest =>
    match splitLastPercent rest with
    | some r => some (c :: r.1, r.2)
    | none =>
      if c == '%' && !rest.isEmpty && rest.all (fun x => !isSpaceChar x) then
        some ([], rest)
      else none

/-- Model of `extractSubstringPattern`: the package-level regexp
`(.+)%(\S+)%$` applied by `FindStringSubmatch`.  The match is anchored at
the end; the greedy `(.+)` group makes the split happen at the rightmost
viable percent pair.  (The model ignores the newline exclusion of `.`,
which no field path contains.) -/
def extractSubstringPattern (path : String) : String × String :=
  let cs := path.toList
  match cs.getLast? with
  | some '%' =>
    match splitLastPercent cs.dropLast with
    | some (g1, g2) => if g1.isEmpty then (path, "") else (String.mk g1, String.mk g2)
    | none => (path, "")
  | _ => (path, "")

/-- Model of `strconv.Atoi`: optional sign, one or more ASCII digits,
64-bit range check; anything else is an error (`none`). -/
def atoi (s : String) : Option Int :=
  let cs := s.toList
  let sd : Int × List Char :=
    match cs with
    | '+' :: rest => (1, rest)
    | '-' :: rest => (-1, rest)
    | _ => (1, cs)
  if sd.2.isEmpty || !sd.2.all Char.isDigit then none
  else
    let n : Nat := sd.2.foldl (fun acc c => acc * 10 + (c.toNat - '0'.toNat)) 0
    let v : Int := sd.1 * (n : Int)
    if v < -(2^63) ∨ (2^63 : Int) ≤ v then none else some v

/-- Fuelled literal replace-all (leftmost, non-overlapping).  `fuel` is
initialised to the length of the subject, which always suffices since
every step consumes at least one subject character. -/
def replaceAllAux : Nat → List Char → List Char → List Char → List Char
  | _, pat, repl, [] => if pat.isEmpty then repl else []
  | 0, _, _, cs => cs
  | fuel+1, pat, repl, c :: rest =>
    if pat.isEmpty then repl ++ c :: replaceAllAux fuel pat repl rest
    else if pat.isPrefixOf (c :: rest) then
      repl ++ replaceAllAux fuel pat repl ((c :: rest).drop pat.length)
    else c :: replaceAllAux fuel pat repl rest

/-- Literal replace-all: every non-overlapping occurrence of `pat` in
`cs` is replaced by `repl`, scanning left to right.  This is exactly
`strings.ReplaceAll` (and the behaviour of a regexp `ReplaceAllString`
whose pattern is a literal). -/
def replaceAll (pat repl cs : List Char) : List Char :=
  replaceAllAux cs.length pat repl cs

/-- Model of `processString`: `regexp.MustCompile(substringPattern).ReplaceAllString(field, replacement)`.
The model restricts the regular expression to literal patterns (no
metacharacters); all structural properties proved below are independent
of the matching engine. -/
def processString (field : String) (substringPattern : String) (replacement : String) : String :=
  String.mk (replaceAll substringPattern.toList replacement.toList field.toList)

/-- Model of `processArray`: apply `processString` to every element in order. -/
def processArray (tgt : List String) (substringPattern : String) (replacement : String) : List String :=
  tgt.map (fun field => processString field substringPattern replacement)

/-- Model of `convertToStrings`: keep only the `string` elements, and
report `true` exactly when at least one survived. -/
def convertToStrings (iFaces : List Value) : List String × Bool :=
  let result := iFaces.filterMap (fun val =>
    match val with
    | .str s => some s
    | _ => none)
  (result, !result.isEmpty)

/-- Go type switch on the replacement in `applySubstringPattern`:
numeric values are stringified with `fmt.Sprint`, strings pass through,
anything else has no string form. -/
def replacementStringOf : Value → Option String
  | .int n => some (toString n)
  | .str s => some s
  | _ => none

/-- Model of `applySubstringPattern`.  Empty pattern: return the
replacement unchanged.  Otherwise the replacement must be a string or
numeric; then a string target is rewritten with `processString`, a slice
target goes through `convertToStrings` (note: non-string elements are
silently dropped, and the ok flag only requires at least one string
element), and any other target kind is a pattern-substring error.  A nil
target would make `reflect.TypeOf(target).Kind()` panic in Go. -/
def applySubstringPattern (target : Value) (replacement : Value)
    (substringPattern : String) : Except Err Value :=
  if substringPattern = "" then .ok replacement
  else
    match replacementStringOf replacement with
    | none => .error (.patternSubstring
        "pattern-based substitution can only be applied with string or numeric replacement values")
    | some replacementString =>
      match target with
      | .str s => .ok (.str (processString s substringPattern replacementString))
      | .seq ifaceArray =>
        let conv := convertToStrings ifaceArray
        if conv.2 then
          .ok (.seq ((processArray conv.1 substringPattern replacementString).map Value.str))
        else .error (.patternSubstring
          "pattern-based substitution can only be applied to string or array of strings target fields")
      | .null => .error (.goPanic "reflect: call of Kind on nil Type")
      | _ => .error (.patternSubstring
          "pattern-based substitution can only be applied to string or array of strings target fields")

/-- Go interface comparison `value == actualValue` where `value` is the
string captured by the predicate regexp: true exactly when the stored
value is a string with the same content (differing dynamic types compare
unequal without panicking). -/
def valueEqString (value : String) (actual : Value) : Bool :=
  match actual with
  | .str s => s == value
  | _ => false

/-- Result of the predicate scan inside `updateMapField`: index of the
first matching element, or a stop at the first non-map element, or no
match at all. -/
inductive ScanResult where
  | found (i : Nat)
  | badItem
  | noMatch
deriving DecidableEq, Repr

/-- The `for i, item := range typedV` loop of `updateMapField`: walk the
sequence in order; a non-map element is an immediate type mismatch; the
first element whose `key` field equals the predicate value (as a string)
is the match. -/
def scanPredicate : List Value → String → String → ScanResult
  | [], _, _ => .noMatch
  | item :: rest, key, value =>
    match item with
    | .map typedItem =>
      match lookupMap typedItem key with
      | some actualValue =>
        if valueEqString value actualValue then .found 0
        else
          match scanPredicate rest key value with
          | .found i => .found (i+1)
          | r => r
      | none =>
        match scanPredicate rest key value with
        | .found i => .found (i+1)
        | r => r
    | _ => .badItem

mutual

/-- Model of `updateField`: empty path is a no-op; a map dispatches to
`updateMapField`, a slice to `updateSliceField`, and any other value
(scalar or nil) is a type mismatch.  First argument is recursion fuel. -/
def updateField : Nat → Value → List String → Value → Value × Option Err
  | 0, m, _, _ => (m, some .outOfFuel)
  | fuel+1, m, pathToField, replacement =>
    match pathToField with
    | [] => (m, none)
    | _ :: _ =>
      match m with
      | .map entries =>
        let r := updateMapField fuel entries pathToField replacement
        (.map r.1, r.2)
      | .seq items =>
        let r := updateSliceField fuel items pathToField replacement
        (.seq r.1, r.2)
      | other => (other, some .typeMismatch)

/-- Model of `updateMapField`.  The head segment is parsed by
`getFirstPathSegment` and then `extractSubstringPattern`; a missing
field is auto-vivified to an empty map before anything else; a nil
stored value is a type mismatch; on the final segment a non-predicate
write goes through `applySubstringPattern` (reading `m[path]`, which at
this point is the bound `v`) and overwrites, and a predicate write scans
a sequence value for the matching element, falling through to
`updateField` on the whole path when no element matched; on a
non-final segment a predicate recurses with the full path and a plain
key recurses with the tail.  The Go function indexes `pathToField[0]`
unconditionally, so an empty path is a runtime panic (unreachable from
`updateField`). -/
def updateMapField : Nat → List (String × Value) → List String → Value →
    List (String × Value) × Option Err
  | 0, m, _, _ => (m, some .outOfFuel)
  | fuel+1, m, pathToField, replacement =>
    match pathToField with
    | [] => (m, some (.goPanic "index out of range"))
    | seg :: restPath =>
      let parsed := getFirstPathSegment seg
      let key := parsed.2.1
      let value := parsed.2.2.1
      let isArray := parsed.2.2.2
      let ep := extractSubstringPattern parsed.1
      let path := ep.1
      let substringPattern := ep.2
      let vf : Value × Bool :=
        match lookupMap m path with
        | some v => (v, true)
        | none => (Value.map [], false)
      let v := vf.1
      let m1 := if vf.2 then m else mapSet m path (Value.map [])
      if v.isNull then (m1, some .typeMismatch)
      else if restPath.isEmpty then
        if !isArray then
          match applySubstringPattern v replacement substringPattern with
          | .error e => (m1, some e)
          | .ok renderedRepl => (mapSet m1 path renderedRepl, none)
        else
          match v with
          | .seq itemsV =>
            match scanPredicate itemsV key value with
            | .found i => (mapSet m1 path (.seq (itemsV.set i replacement)), none)
            | .badItem => (m1, some .typeMismatch)
            | .noMatch =>
              let r := updateField fuel v (seg :: restPath) replacement
              (mapSet m1 path r.1, r.2)
          | _ => (m1, some .typeMismatch)
      else
        if isArray then
          let r := updateField fuel v (seg :: restPath) replacement
          (mapSet m1 path r.1, r.2)
        else
          let r := updateField fuel v restPath replacement
          (mapSet m1 path r.1, r.2)

/-- Model of `updateSliceField`.  Empty path is a no-op.  A predicate
segment scans the slice via `sliceScan`.  Otherwise the segment must
parse as an integer (`strconv.Atoi`, whose error is returned verbatim);
the bounds check of the source is `len(m) < index || index < 0`, which
admits `index == len(m)` - the subsequent element access then panics. -/
def updateSliceField : Nat → List Value → List String → Value → List Value × Option Err
  | 0, m, _, _ => (m, some .outOfFuel)
  | fuel+1, m, pathToField, replacement =>
    match pathToField with
    | [] => (m, none)
    | seg :: restPath =>
      let parsed := getFirstPathSegment seg
      let key := parsed.2.1
      let value := parsed.2.2.1
      let isArray := parsed.2.2.2
      if isArray then
        sliceScan fuel m key value restPath replacement
      else
        match atoi seg with
        | none => (m, some (.atoiError seg))
        | some index =>
          if (m.length : Int) < index ∨ index < 0 then
            (m, some (.indexOutOfBound index m.length))
          else if restPath.isEmpty then
            if index.toNat < m.length then (m.set index.toNat replacement, none)
            else (m, some (.goPanic "index out of range"))
          else
            match m.get? index.toNat with
            | none => (m, some (.goPanic "index out of range"))
            | some element =>
              let r := updateField fuel element restPath replacement
              (m.set index.toNat r.1, r.2)

/-- The `for _, item := range m` loop of `updateSliceField`'s predicate
branch: a non-map element is an immediate type mismatch; the first
element whose `key` field equals the predicate value is updated in place
by `updateField` with the remaining path (so with an empty remaining
path nothing is written); no match leaves the slice untouched with no
error.  The loop consumes one unit of fuel per element (a modelling
artifact; the Go loop is a plain iteration). -/
def sliceScan : Nat → List Value → String → String → List String → Value →
    List Value × Option Err
  | _, [], _, _, _, _ => ([], none)
  | 0, item :: rest, _, _, _, _ => (item :: rest, some .outOfFuel)
  | fuel+1, item :: rest, key, value, restPath, replacement =>
    match item with
    | .map typedItem =>
      match lookupMap typedItem key with
      | some actualValue =>
        if valueEqString value actualValue then
          let r := updateField fuel (.map typedItem) restPath replacement
          (r.1 :: rest, r.2)
        else
          let r := sliceScan fuel rest key value restPath replacement
          (item :: r.1, r.2)
      | none =>
        let r := sliceScan fuel rest key value restPath replacement
        (item :: r.1, r.2)
    | _ => (item :: rest, some .typeMismatch)

end

/-- Go `strings.Split` with a single-character separator. -/
def splitOnChar (sep : Char) : List Char → List (List Char)
  | [] => [[]]
  | c :: rest =>
    let r := splitOnChar sep rest
    if c == sep then [] :: r
    else
      match r with
      | [] => [[c]]
      | p :: ps => (c :: p) :: ps

/-- Go `strings.Join` with a single-character separator. -/
def joinChar (sep : Char) : List (List Char) → List Char
  | [] => []
  | [p] => p
  | p :: ps => p ++ sep :: joinChar sep ps

/-- The private placeholder `dotReplacer = "$$$$"` of the source. -/
def dotReplacer : List Char := ['$', '$', '$', '$']

/-- One iteration of the bracket-protection loop in `substitute`: in a
piece produced by splitting on an opening bracket, if it contains a
closing bracket, replace the dots of the part before the first closing
bracket by the placeholder. -/
def protectPart (part : List Char) : List Char :=
  if part.contains ']' then
    match splitOnChar ']' part with
    | [] => part
    | f0 :: fs => joinChar ']' (replaceAll ['.'] dotReplacer f0 :: fs)
  else part

/-- Append a suffix to the last element of a nonempty list of strings
(`pathSlice[len(pathSlice)-1] += ...`). -/
def appendToLast (suffix : List Char) : List (List Char) → List (List Char)
  | [] => []
  | [lastPart] => [lastPart ++ suffix]
  | p :: ps => p :: appendToLast suffix ps

/-- Path decoding performed inline by `substitute` for each field
reference: protect dots inside bracketed array predicates with the
placeholder, strip a trailing substring pattern, split on dots, glue the
pattern back onto the last segment, and restore the placeholder to dots
in every segment. -/
def parseFieldPath (p : String) : List String :=
  let parts := splitOnChar '[' p.toList
  let tmp := parts.map protectPart
  let p1 := joinChar '[' tmp
  let ep := extractSubstringPattern (String.mk p1)
  let substringPattern := ep.2
  let pathSlice := splitOnChar '.' ep.1.toList
  let pathSlice2 :=
    if substringPattern.length > 0 then
      appendToLast ('%' :: substringPattern.toList ++ ['%']) pathSlice
    else pathSlice
  pathSlice2.map (fun part => String.mk (replaceAll dotReplacer ['.'] part))

/-- Partial object reference (group/version/kind/name/namespace); empty
fields are wildcards during selection. -/
structure ObjRef where
  group : String
  version : String
  kind : String
  name : String
  nspace : String
deriving DecidableEq, Repr

/-- Replacement source (`types.ReplSource`): an optional object
reference together with a field reference, or a literal value (the Go
zero value of the string is the empty string). -/
structure ReplSource where
  objRef : Option ObjRef
  fieldRef : String
  value : String
deriving DecidableEq, Repr

/-- Replacement target (`types.ReplTarget`): an object reference and the
list of field paths to mutate. -/
structure ReplTarget where
  objRef : ObjRef
  fieldRefs : List String
deriving DecidableEq, Repr

/-- One replacement rule (`airshipv1.Replacement`): optional source and
target, as pointers in the Go type. -/
structure Replacement where
  source : Option ReplSource
  target : Option ReplTarget
deriving DecidableEq, Repr

/-- One structured resource: identity plus the decoded field tree. -/
structure Document where
  group : String
  version : String
  kind : String
  name : String
  nspace : String
  root : Value

/-- Modelled from the spec: the resource selector of the external
kustomize `resmap` (not part of this repository).  A document matches
when every non-empty field of the reference equals the corresponding
identity field. -/
def matchesSelector (s : ObjRef) (d : Document) : Bool :=
  (s.group == "" || s.group == d.group) &&
  (s.version == "" || s.version == d.version) &&
  (s.kind == "" || s.kind == d.kind) &&
  (s.name == "" || s.name == d.name) &&
  (s.nspace == "" || s.nspace == d.nspace)

/-- Modelled from the spec: `m.Select` of the external kustomize resmap,
returning all documents matching the reference. -/
def selectDocs (docs : List Document) (s : ObjRef) : List Document :=
  docs.filter (matchesSelector s)

/-- Modelled from the spec: walk a dotted field path through nested maps. -/
def getFieldValueAux : Value → List String → Except Err Value
  | root, [] => .ok root
  | root, k :: rest =>
    match root with
    | .map m =>
      match lookupMap m k with
      | some v => getFieldValueAux v rest
      | none => .error .fieldNotFound
    | _ => .error .fieldNotFound

/-- Modelled from the spec: `Resource.GetFieldValue` of the external
kustomize library (not part of this repository) - extract the value at a
dotted field path. -/
def getFieldValue (root : Value) (fieldRef : String) : Except Err Value :=
  getFieldValueAux root ((splitOnChar '.' fieldRef.toList).map String.mk)

/-- Model of `getReplacement`: select source documents, demand exactly
one match (more than one is the multiple-resources error, zero is
source-not-found), then extract the field, defaulting to
`metadata.name`. -/
def getReplacement (docs : List Document) (objRef : ObjRef) (fieldRef : String) :
    Except Err Value :=
  let resources := selectDocs docs objRef
  if resources.length > 1 then .error .multipleResources
  else
    match resources with
    | [] => .error .sourceNotFound
    | r :: _ =>
      let fr := if fieldRef = "" then "metadata.name" else fieldRef
      getFieldValue r.root fr

/-- The inner loop of `substitute` for one target document: apply
`updateField` for each field reference in order, stopping at the first
error; mutations made before the error persist. -/
def applyFieldRefs (fuel : Nat) : Value → List String → Value → Value × Option Err
  | root, [], _ => (root, none)
  | root, p :: rest, replacement =>
    let r := updateField fuel root (parseFieldPath p) replacement
    match r.2 with
    | some e => (r.1, some e)
    | none => applyFieldRefs fuel r.1 rest replacement

/-- The per-document loop of `substitute`: every document matched by the
target selector is mutated in place; the first error aborts the run,
leaving earlier mutations in place and later matched documents
untouched. -/
def substituteLoop (fuel : Nat) (tgt : ReplTarget) (replacement : Value) :
    List Document → List Document × Option Err
  | [] => ([], none)
  | d :: ds =>
    if matchesSelector tgt.objRef d then
      let r := applyFieldRefs fuel d.root tgt.fieldRefs replacement
      let d' := { d with root := r.1 }
      match r.2 with
      | some e => (d' :: ds, some e)
      | none =>
        let rest := substituteLoop fuel tgt replacement ds
        (d' :: rest.1, rest.2)
    else
      let rest := substituteLoop fuel tgt replacement ds
      (d :: rest.1, rest.2)

/-- Model of `substitute`: select the target documents, fail with
target-not-found when none matches, otherwise mutate every matched
document. -/
def substitute (fuel : Nat) (docs : List Document) (tgt : ReplTarget)
    (replacement : Value) : List Document × Option Err :=
  if (selectDocs docs tgt.objRef).isEmpty then (docs, some .targetNotFound)
  else substituteLoop fuel tgt replacement docs

/-- The validation loop of `New`: a rule must have a source and a
target, and must not set both an object reference and a literal value on
the source.  (Nothing rejects a source with neither set.) -/
def checkReplacements : List Replacement → Option Err
  | [] => none
  | r :: rest =>
    match r.source with
    | none => some (.badConfiguration "`from` must be specified in one replacement")
    | some s =>
      match r.target with
      | none => some (.badConfiguration "`to` must be specified in one replacement")
      | some _ =>
        if s.objRef.isSome && decide (s.value ≠ "") then
          some (.badConfiguration "only one of fieldref and value is allowed in one replacement")
        else checkReplacements rest

/-- Model of `New` restricted to the already-decoded rule list (the
unstructured-conversion step is I/O glue): run the validation loop and
return the plugin's rules on success. -/
def newPlugin (rs : List Replacement) : Except Err (List Replacement) :=
  match checkReplacements rs with
  | some e => .error e
  | none => .ok rs

/-- Predicate over a sequence: every element is a map whose `key` field
(if any) differs from the predicate value. -/
def NoPredicateMatch (items : List Value) (key value : String) : Prop :=
  ∀ it ∈ items, ∃ im, it = Value.map im ∧
    ∀ actual, lookupMap im key = some actual → valueEqString value actual = false

/-- Characterisation of the rules `New` actually rejects: missing
source, missing target, or both an object reference and a literal value
set.  (A source with neither set is NOT invalid for `New`.) -/
def invalidReplacement (r : Replacement) : Bool :=
  match r.source with
  | none => true
  | some s =>
    match r.target with
    | none => true
    | some _ => s.objRef.isSome && decide (s.value ≠ "")

/-- Writing back the value just read leaves the association list unchanged. -/
theorem mapSet_lookup_self (m : List (String × Value)) (k : String) (v : Value)
    (h : lookupMap m k = some v) : mapSet m k v = m := by
  induction m with
  | nil => simp [lookupMap] at h
  | cons hd tl ih =>
    obtain ⟨k', v'⟩ := hd
    by_cases hk : k' = k
    · subst hk
      simp [lookupMap] at h
      simp [mapSet, h]
    · simp only [lookupMap, if_neg hk] at h
      simp [mapSet, hk, ih h]

/-- Writing an absent key appends the new entry at the end. -/
theorem mapSet_lookup_none (m : List (String × Value)) (k : String) (x : Value)
    (h : lookupMap m k = none) : mapSet m k x = m ++ [(k, x)] := by
  induction m with
  | nil => simp [mapSet]
  | cons hd tl ih =>
    obtain ⟨k', v'⟩ := hd
    by_cases hk : k' = k
    · subst hk; simp [lookupMap] at h
    · simp only [lookupMap, if_neg hk] at h
      simp [mapSet, hk, ih h]

/-- Two successive writes to the same key collapse to the second. -/
theorem mapSet_mapSet (m : List (String × Value)) (k : String) (a b : Value) :
    mapSet (mapSet m k a) k b = mapSet m k b := by
  induction m with
  | nil => simp [mapSet]
  | cons hd tl ih =>
    obtain ⟨k', v'⟩ := hd
    by_cases hk : k' = k
    · subst hk; simp [mapSet]
    · simp [mapSet, hk, ih]

/-- When nothing matches, the scan of `updateMapField` reports `noMatch`. -/
theorem scanPredicate_noMatch (items : List Value) (key value : String)
    (h : NoPredicateMatch items key value) : scanPredicate items key value = .noMatch := by
  induction items with
  | nil => rfl
  | cons it tl ih =>
    obtain ⟨im, him, hval⟩ := h it (List.mem_cons_self it tl)
    subst him
    have htl : NoPredicateMatch tl key value := fun x hx => h x (List.mem_cons_of_mem _ hx)
    cases hl : lookupMap im key with
    | none => simp [scanPredicate, hl, ih htl]
    | some actual => simp [scanPredicate, hl, hval actual hl, ih htl]

/-- When nothing matches, the scan of `updateSliceField` is an errorless
no-op, for any remaining path.  The fuel bound accounts for one unit per
element. -/
theorem sliceScan_noMatch (items : List Value) (key value : String)
    (h : NoPredicateMatch items key value) :
    ∀ fuel restPath repl, sliceScan (items.length + fuel) items key value restPath repl =
      (items, none) := by
  induction items with
  | nil => intro fuel restPath repl; simp [sliceScan]
  | cons it tl ih =>
    intro fuel restPath repl
    obtain ⟨im, him, hval⟩ := h it (List.mem_cons_self it tl)
    subst him
    have htl : NoPredicateMatch tl key value := fun x hx => h x (List.mem_cons_of_mem _ hx)
    have hlen : (Value.map im :: tl).length + fuel = (tl.length + fuel) + 1 := by
      simp [List.length]; omega
    rw [hlen]
    cases hl : lookupMap im key with
    | none => simp [sliceScan, hl, ih htl fuel restPath repl]
    | some actual => simp [sliceScan, hl, hval actual hl, ih htl fuel restPath repl]

/-- C1: the spec demands failure with `IndexOutOfBound` for every index
outside `[0, length)`, and success inside.  The code errors for `5` and
succeeds for `2` in a length-3 sequence as the spec's examples say, but
its bounds check `len(m) < index` admits `index == len(m)`: writing
index `3` into a length-3 sequence passes the check and the element
assignment panics at runtime instead of returning `IndexOutOfBound`. -/
theorem c1_index_eq_length_panics :
    updateSliceField 5 [.str "a", .str "b", .str "c"] ["5"] (.str "x") =
      ([.str "a", .str "b", .str "c"], some (.indexOutOfBound 5 3)) ∧
    updateSliceField 5 [.str "a", .str "b", .str "c"] ["2"] (.str "x") =
      ([.str "a", .str "b", .str "x"], none) ∧
    updateSliceField 5 [.str "a", .str "b", .str "c"] ["3"] (.str "x") =
      ([.str "a", .str "b", .str "c"], some (.goPanic "index out of range")) :=
  ⟨rfl, rfl, rfl⟩

/-- C9: the path `spec.ip[tag=10.0.0.1].value` parses into exactly three
segments - the key `spec`, the predicate segment with container field
`ip`, match key `tag` and match value `10.0.0.1`, and the key `value`;
the dots inside the bracketed predicate are protected and never split. -/
theorem c9_dot_protection :
    parseFieldPath "spec.ip[tag=10.0.0.1].value" = ["spec", "ip[tag=10.0.0.1]", "value"] ∧
    getFirstPathSegment "spec" = ("spec", "", "", false) ∧
    getFirstPathSegment "ip[tag=10.0.0.1]" = ("ip", "tag", "10.0.0.1", true) ∧
    getFirstPathSegment "value" = ("value", "", "", false) :=
  ⟨rfl, rfl, rfl, rfl⟩

/-- C2 counterexample: with pattern `a` and replacement `b`, the target
sequence `["aa", 5]` contains a non-string element, so the claim demands
a `PatternTargetInvalid` failure with the target left unchanged; the
code instead succeeds, silently dropping the non-string element: the map
entry becomes the one-element sequence `["bb"]`. -/
theorem c2_counterexample :
    updateMapField 3 [("f", .seq [.str "aa", .int 5])] ["f%a%"] (.str "b") =
      ([("f", .seq [.str "bb"])], none) := rfl

/-- C3 counterexample: a final plain-key write over a stored `nil` value
returns `TypeMismatch` instead of overwriting - the nil failure is not
restricted to intermediate positions. -/
theorem c3_counterexample :
    updateMapField 5 [("a", .null)] ["a"] (.str "x") =
      ([("a", .null)], some .typeMismatch) := rfl

/-- C4 counterexample: a final predicate write on a map lacking the
field does fail (`TypeMismatch`), but the claim's "does not create the
entry, document unchanged" is false: an empty map is auto-vivified at
the field and survives the error. -/
theorem c4_counterexample :
    updateMapField 5 [] ["ip[key=val]"] (.str "x") =
      ([("ip", Value.map [])], some .typeMismatch) := rfl

/-- C5 counterexample: a rule whose source sets neither an object
reference nor a literal value is accepted by `New`, though the claim
demands a `BadConfiguration` error for it. -/
theorem c5_counterexample :
    newPlugin [{ source := some { objRef := none, fieldRef := "", value := "" },
                 target := some { objRef := ⟨"", "", "", "", ""⟩, fieldRefs := ["a"] } }] =
      .ok [{ source := some { objRef := none, fieldRef := "", value := "" },
             target := some { objRef := ⟨"", "", "", "", ""⟩, fieldRefs := ["a"] } }] := rfl

/-- C10: over a sequence, a segment that is neither an array predicate
nor an integer literal makes the write return the `strconv.Atoi` parse
error verbatim, leaving the sequence unchanged - never a silent no-op. -/
theorem c10_non_numeric_segment_errors (fuel : Nat) (items : List Value)
    (seg : String) (rest : List String) (repl : Value)
    (h1 : (getFirstPathSegment seg).2.2.2 = false)
    (h2 : atoi seg = none) :
    updateSliceField (fuel+1) items (seg :: rest) repl = (items, some (.atoiError seg)) := by
  simp [updateSliceField, h1, h2]

/-- C10 witness: the concrete segment `foo` over the sequence `["a"]`. -/
theorem c10_witness :
    updateSliceField 1 [.str "a"] ["foo"] (.str "x") = ([.str "a"], some (.atoiError "foo")) :=
  c10_non_numeric_segment_errors 0 [.str "a"] "foo" [] (.str "x") rfl rfl

/-- C3 amended: a final plain-key, pattern-free write on a map entry
overwrites the entry and returns no error for every non-nil stored
value; when the stored value is nil the write fails with `TypeMismatch`
even though the segment is final. -/
theorem c3_final_key_overwrite (entries : List (String × Value)) (seg : String)
    (v repl : Value) (fuel : Nat)
    (h1 : getFirstPathSegment seg = (seg, "", "", false))
    (h2 : extractSubstringPattern seg = (seg, ""))
    (h3 : lookupMap entries seg = some v) :
    (v.isNull = false →
      updateMapField (fuel+1) entries [seg] repl = (mapSet entries seg repl, none)) ∧
    (v = .null →
      updateMapField (fuel+1) entries [seg] repl = (entries, some .typeMismatch)) := by
  constructor
  · intro hv
    simp [updateMapField, h1, h2, h3, hv, applySubstringPattern]
  · intro hv
    subst hv
    simp [updateMapField, h1, h2, h3, Value.isNull]

/-- C3 witness: overwriting the string entry `a` succeeds; overwriting
the nil entry `b` fails with `TypeMismatch`. -/
theorem c3_witness :
    updateMapField 1 [("a", .str "old")] ["a"] (.str "x") = ([("a", .str "x")], none) ∧
    updateMapField 1 [("b", .null)] ["b"] (.str "x") =
      ([("b", .null)], some .typeMismatch) := by
  constructor
  · have h := (c3_final_key_overwrite [("a", .str "old")] "a" (.str "old") (.str "x") 0
      rfl rfl rfl).1 rfl
    simpa [mapSet] using h
  · exact (c3_final_key_overwrite [("b", .null)] "b" .null (.str "x") 0 rfl rfl rfl).2 rfl

/-- Unfolding lemma: the ok flag of `convertToStrings` is exactly the
nonemptiness of the surviving string list. -/
theorem convertToStrings_snd (items : List Value) :
    (convertToStrings items).2 = !(convertToStrings items).1.isEmpty := by
  simp [convertToStrings]

/-- C2 amended: with a pattern present and a sequence target, the
replace-all is applied to the string elements only, in order: when every
element is a string the result keeps length and order (per-element
replace-all); when no element is a string - including the empty
sequence - the write fails with the pattern-target error and the entry
is unchanged; but a mixed sequence does NOT fail: its non-string
elements are silently dropped and the result is the image of the string
elements alone. -/
theorem c2_sequence_substring (pat rs : String) (items : List Value) (hpat : pat ≠ "") :
    ((convertToStrings items).1 ≠ [] →
      applySubstringPattern (.seq items) (.str rs) pat =
        .ok (.seq ((convertToStrings items).1.map (fun s => .str (processString s pat rs))))) ∧
    ((convertToStrings items).1 = [] →
      applySubstringPattern (.seq items) (.str rs) pat =
        .error (.patternSubstring
          "pattern-based substitution can only be applied to string or array of strings target fields")) ∧
    (∀ (entries : List (String × Value)) (seg f : String) (fuel : Nat),
      getFirstPathSegment seg = (seg, "", "", false) →
      extractSubstringPattern seg = (f, pat) →
      lookupMap entries f = some (.seq items) →
      (convertToStrings items).1 = [] →
      updateMapField (fuel+1) entries [seg] (.str rs) =
        (entries, some (.patternSubstring
          "pattern-based substitution can only be applied to string or array of strings target fields"))) := by
  have hok : (convertToStrings items).1 ≠ [] →
      applySubstringPattern (.seq items) (.str rs) pat =
        .ok (.seq ((convertToStrings items).1.map (fun s => .str (processString s pat rs)))) := by
    intro hne
    have h2' : (convertToStrings items).2 = true := by
      rw [convertToStrings_snd]
      simp [List.isEmpty_iff, hne]
    simp [applySubstringPattern, hpat, replacementStringOf, h2', processArray, List.map_map]
  have herr : (convertToStrings items).1 = [] →
      applySubstringPattern (.seq items) (.str rs) pat =
        .error (.patternSubstring
          "pattern-based substitution can only be applied to string or array of strings target fields") := by
    intro he
    have h2' : (convertToStrings items).2 = false := by
      rw [convertToStrings_snd, he]
      rfl
    simp [applySubstringPattern, hpat, replacementStringOf, h2']
  refine ⟨hok, herr, ?_⟩
  intro entries seg f fuel h1 h2 h3 he
  simp [updateMapField, h1, h2, h3, Value.isNull, herr he]

/-- C2 witness: the all-string sequence case succeeds element-wise. -/
theorem c2_witness :
    applySubstringPattern (.seq [.str "aa", .str "ca"]) (.str "b") "a" =
      .ok (.seq [.str "bb", .str "cb"]) := by
  have h := (c2_sequence_substring "a" "b" [.str "aa", .str "ca"] (by decide)).1 (by decide)
  exact h.trans (by rfl)

/-- Helper for the C4 divergence: with a predicate head segment over a
map that lacks the field, the mutator recreates the situation it started
from (it vivifies an empty map and recurses with the full path into it),
so the fuel always runs out - the source diverges. -/
theorem updateMapField_predicate_missing_diverges (seg f k v : String) (repl : Value)
    (rest : List String)
    (h1 : getFirstPathSegment seg = (f, k, v, true))
    (h2 : extractSubstringPattern f = (f, ""))
    (h3 : rest ≠ []) :
    ∀ fuel (entries : List (String × Value)), lookupMap entries f = none →
      (updateMapField fuel entries (seg :: rest) repl).2 = some Err.outOfFuel := by
  intro fuel
  induction fuel using Nat.strong_induction_on with
  | _ fuel ih =>
    intro entries he
    match fuel with
    | 0 => rfl
    | n+1 =>
      have hr : rest.isEmpty = false := by
        cases rest with
        | nil => exact absurd rfl h3
        | cons a l => rfl
      match n with
      | 0 =>
        simp [updateMapField, h1, h2, he, hr, Value.isNull, updateField]
      | m+1 =>
        have hrec := ih m (by omega) [] (by rfl)
        simp [updateMapField, h1, h2, he, hr, Value.isNull, updateField, hrec]

/-- C4 amended: an array-predicate segment over a map field that does
not exist is never a successful write, but not for the reason the spec
gives: the traversal auto-vivifies an empty map at the field first; when
the predicate segment is final it then fails with `TypeMismatch`,
leaving the freshly created empty entry in the document; when further
segments follow, it recurses into the vivified empty map with the same
path and never terminates (modelled as running out of every fuel). -/
theorem c4_predicate_no_autovivify (seg f k v : String) (repl : Value)
    (h1 : getFirstPathSegment seg = (f, k, v, true))
    (h2 : extractSubstringPattern f = (f, "")) :
    (∀ (entries : List (String × Value)) (fuel : Nat), lookupMap entries f = none →
      updateMapField (fuel+1) entries [seg] repl =
        (entries ++ [(f, Value.map [])], some .typeMismatch)) ∧
    (∀ (rest : List String) (entries : List (String × Value)) (fuel : Nat),
      rest ≠ [] → lookupMap entries f = none →
      (updateMapField fuel entries (seg :: rest) repl).2 = some Err.outOfFuel) := by
  constructor
  · intro entries fuel he
    simp [updateMapField, h1, h2, he, Value.isNull, mapSet_lookup_none entries f _ he]
  · intro rest entries fuel h3 he
    exact updateMapField_predicate_missing_diverges seg f k v repl rest h1 h2 h3 fuel entries he

/-- C4 witness: concrete final and non-final predicate writes on an
empty map. -/
theorem c4_witness :
    updateMapField 1 [] ["ip[key=val]"] (.str "x") =
      ([("ip", Value.map [])], some .typeMismatch) ∧
    (updateMapField 9 [] ["ip[key=val]", "z"] (.str "x")).2 = some Err.outOfFuel := by
  constructor
  · have h := (c4_predicate_no_autovivify "ip[key=val]" "ip" "key" "val" (.str "x")
      rfl rfl).1 [] 0 rfl
    simpa using h
  · exact (c4_predicate_no_autovivify "ip[key=val]" "ip" "key" "val" (.str "x")
      rfl rfl).2 ["z"] [] 9 (by simp) rfl

/-- C7: when a predicate segment scans a sequence of maps and no
element's `key` field equals the predicate value, the write returns no
error and the document is left completely unchanged, whether the
predicate segment is final or followed by further segments. -/
theorem c7_predicate_no_match_is_noop (entries : List (String × Value))
    (seg f k v : String) (items : List Value) (rest : List String)
    (repl : Value) (fuel : Nat)
    (h1 : getFirstPathSegment seg = (f, k, v, true))
    (h2 : extractSubstringPattern f = (f, ""))
    (h3 : lookupMap entries f = some (.seq items))
    (h4 : NoPredicateMatch items k v) :
    updateMapField (items.length + fuel + 3) entries (seg :: rest) repl = (entries, none) := by
  have hscan := scanPredicate_noMatch items k v h4
  have hms := mapSet_lookup_self entries f (.seq items) h3
  have hsl : updateSliceField (items.length + fuel + 1) items (seg :: rest) repl =
      (items, none) := by
    rw [show items.length + fuel + 1 = (items.length + fuel) + 1 from rfl]
    simp [updateSliceField, h1]
    exact sliceScan_noMatch items k v h4 fuel rest repl
  have hup : updateField (items.length + fuel + 2) (.seq items) (seg :: rest) repl =
      (.seq items, none) := by
    rw [show items.length + fuel + 2 = (items.length + fuel + 1) + 1 from rfl]
    simp [updateField, hsl]
  rw [show items.length + fuel + 3 = (items.length + fuel + 2) + 1 from rfl]
  cases rest with
  | nil => simp [updateMapField, h1, h2, h3, Value.isNull, hscan, hup, hms]
  | cons a l => simp [updateMapField, h1, h2, h3, Value.isNull, hup, hms]

/-- C7 witness: a one-element sequence of maps with no matching element,
with and without a remaining path. -/
theorem c7_witness :
    updateMapField 4 [("spec", .seq [.map [("name", .str "a")]])] ["spec[name=b]"]
      (.str "x") = ([("spec", .seq [.map [("name", .str "a")]])], none) ∧
    updateMapField 4 [("spec", .seq [.map [("name", .str "a")]])] ["spec[name=b]", "img"]
      (.str "x") = ([("spec", .seq [.map [("name", .str "a")]])], none) := by
  have hnm : NoPredicateMatch [.map [("name", .str "a")]] "name" "b" := by
    intro it hit
    simp at hit
    subst hit
    refine ⟨[("name", .str "a")], rfl, ?_⟩
    intro actual ha
    simp [lookupMap] at ha
    subst ha
    rfl
  constructor
  · exact c7_predicate_no_match_is_noop [("spec", .seq [.map [("name", .str "a")]])]
      "spec[name=b]" "spec" "name" "b" [.map [("name", .str "a")]] [] (.str "x") 0
      rfl rfl rfl hnm
  · exact c7_predicate_no_match_is_noop [("spec", .seq [.map [("name", .str "a")]])]
      "spec[name=b]" "spec" "name" "b" [.map [("name", .str "a")]] ["img"] (.str "x") 0
      rfl rfl rfl hnm

/-- C8: writing through a missing intermediate plain key auto-vivifies
an empty map and continues: on a document whose `metadata` map has no
`labels` entry, writing `repl` at `metadata.labels.owner` produces
`metadata.labels == \x7bowner: repl\x7d`, appended after the existing
`metadata` entries, with no error. -/
theorem c8_autovivify (d mm : List (String × Value)) (repl : Value) (fuel : Nat)
    (h1 : lookupMap d "metadata" = some (.map mm))
    (h2 : lookupMap mm "labels" = none) :
    updateField (fuel+6) (.map d) ["metadata", "labels", "owner"] repl =
      (.map (mapSet d "metadata" (.map (mm ++ [("labels", Value.map [("owner", repl)])]))),
        none) := by
  have p1 : getFirstPathSegment "metadata" = ("metadata", "", "", false) := rfl
  have p2 : getFirstPathSegment "labels" = ("labels", "", "", false) := rfl
  have p3 : getFirstPathSegment "owner" = ("owner", "", "", false) := rfl
  have e1 : extractSubstringPattern "metadata" = ("metadata", "") := rfl
  have e2 : extractSubstringPattern "labels" = ("labels", "") := rfl
  have e3 : extractSubstringPattern "owner" = ("owner", "") := rfl
  have hown : updateField (fuel+2) (Value.map []) ["owner"] repl =
      (.map [("owner", repl)], none) := by
    rw [show fuel+2 = (fuel+1)+1 from rfl]
    simp [updateField, updateMapField, p3, e3, lookupMap, applySubstringPattern, mapSet, Value.isNull]
  have hlab : updateField (fuel+4) (Value.map mm) ["labels", "owner"] repl =
      (.map (mapSet mm "labels" (.map [("owner", repl)])), none) := by
    rw [show fuel+4 = (fuel+3)+1 from rfl]
    simp only [updateField]
    rw [show fuel+3 = (fuel+2)+1 from rfl]
    simp [updateMapField, p2, e2, h2, Value.isNull, hown, mapSet_mapSet]
  rw [show fuel+6 = (fuel+5)+1 from rfl]
  simp only [updateField]
  rw [show fuel+5 = (fuel+4)+1 from rfl]
  simp [updateMapField, p1, e1, h1, Value.isNull, hlab, mapSet_lookup_none mm "labels" _ h2]

/-- C8 witness: the spec's scenario with source literal `abc` on a
resource whose metadata has no labels map. -/
theorem c8_witness :
    updateField 6 (.map [("metadata", .map [("name", .str "x")])])
      ["metadata", "labels", "owner"] (.str "abc") =
      (.map [("metadata", .map [("name", .str "x"),
        ("labels", .map [("owner", .str "abc")])])], none) := by
  have h := c8_autovivify [("metadata", .map [("name", .str "x")])] [("name", .str "x")]
    (.str "abc") 0 rfl rfl
  exact h.trans (by rfl)

/-- The validation loop accepts exactly the lists with no invalid rule. -/
theorem checkReplacements_none_iff (rs : List Replacement) :
    checkReplacements rs = none ↔ ∀ r ∈ rs, invalidReplacement r = false := by
  induction rs with
  | nil => simp [checkReplacements]
  | cons r rest ih =>
    cases hs : r.source with
    | none => simp [checkReplacements, hs, invalidReplacement]
    | some s =>
      cases ht : r.target with
      | none => simp [checkReplacements, hs, ht, invalidReplacement]
      | some t =>
        by_cases hb : s.objRef.isSome = true ∧ ¬s.value = ""
        · simp [checkReplacements, hs, ht, hb, invalidReplacement]
        · simp [checkReplacements, hs, ht, hb, invalidReplacement, ih]
          intro hmem
          tauto

/-- Every error of the validation loop is a `BadConfiguration`. -/
theorem checkReplacements_some_bad (rs : List Replacement) (e : Err)
    (h : checkReplacements rs = some e) : ∃ msg, e = .badConfiguration msg := by
  induction rs with
  | nil => simp [checkReplacements] at h
  | cons r rest ih =>
    cases hs : r.source with
    | none =>
      simp [checkReplacements, hs] at h
      exact ⟨_, h.symm⟩
    | some s =>
      cases ht : r.target with
      | none =>
        simp [checkReplacements, hs, ht] at h
        exact ⟨_, h.symm⟩
      | some t =>
        by_cases hb : s.objRef.isSome = true ∧ ¬s.value = ""
        · simp [checkReplacements, hs, ht, hb] at h
          exact ⟨_, h.symm⟩
        · simp [checkReplacements, hs, ht, hb] at h
          exact ih h

/-- C5 amended: `New` returns `BadConfiguration` exactly when some rule
omits its source, omits its target, or sets both an object reference and
a literal value; every error it returns is a `BadConfiguration`; but a
source with neither an object reference nor a literal value is accepted
(that check is not performed). -/
theorem c5_new_validation (rs : List Replacement) :
    (newPlugin rs = .ok rs ↔ ∀ r ∈ rs, invalidReplacement r = false) ∧
    (∀ e, newPlugin rs = .error e → ∃ msg, e = .badConfiguration msg) := by
  constructor
  · cases h : checkReplacements rs with
    | none =>
      simp [newPlugin, h]
      exact (checkReplacements_none_iff rs).mp h
    | some e =>
      simp [newPlugin, h]
      by_contra hno
      push_neg at hno
      have hnone : checkReplacements rs = none :=
        (checkReplacements_none_iff rs).mpr (fun r hr => by simpa using hno r hr)
      rw [h] at hnone
      exact Option.noConfusion hnone
  · intro e he
    cases h : checkReplacements rs with
    | none => simp [newPlugin, h] at he
    | some e' =>
      simp [newPlugin, h] at he
      subst he
      exact checkReplacements_some_bad rs e' h

/-- C5 witness: a valid rule list is accepted. -/
theorem c5_witness :
    newPlugin [{ source := some { objRef := none, fieldRef := "", value := "v" },
                 target := some { objRef := ⟨"", "", "", "", ""⟩, fieldRefs := ["a"] } }] =
      .ok [{ source := some { objRef := none, fieldRef := "", value := "v" },
             target := some { objRef := ⟨"", "", "", "", ""⟩, fieldRefs := ["a"] } }] :=
  (c5_new_validation _).1.mpr (by decide)

/-- When every matched document's writes succeed, the substitution loop
rewrites exactly the matched documents, in place, with no error. -/
theorem substituteLoop_all_ok (fuel : Nat) (tgt : ReplTarget) (repl : Value) :
    ∀ docs : List Document,
      (∀ d ∈ docs, matchesSelector tgt.objRef d = true →
        (applyFieldRefs fuel d.root tgt.fieldRefs repl).2 = none) →
      substituteLoop fuel tgt repl docs =
        (docs.map (fun d =>
          if matchesSelector tgt.objRef d then
            { d with root := (applyFieldRefs fuel d.root tgt.fieldRefs repl).1 }
          else d), none) := by
  intro docs
  induction docs with
  | nil => intro _; rfl
  | cons d ds ih =>
    intro h
    have hds := ih (fun x hx => h x (List.mem_cons_of_mem _ hx))
    by_cases hm : matchesSelector tgt.objRef d = true
    · have hok := h d (List.mem_cons_self d ds) hm
      simp [substituteLoop, hm, hok, hds]
    · simp only [Bool.not_eq_true] at hm
      simp [substituteLoop, hm, hds]

/-- C6: source resolution demands exactly one match - zero matched
documents give `SourceNotFound` and more than one gives the
multiple-resources error - while target selection only fails when it
matches nothing (`TargetNotFound`, document set unchanged); several
matched targets are no error: every matched target is mutated by the
field-reference writes. -/
theorem c6_source_target_cardinality :
    (∀ (docs : List Document) (objRef : ObjRef) (fieldRef : String),
      selectDocs docs objRef = [] →
      getReplacement docs objRef fieldRef = .error .sourceNotFound) ∧
    (∀ (docs : List Document) (objRef : ObjRef) (fieldRef : String),
      2 ≤ (selectDocs docs objRef).length →
      getReplacement docs objRef fieldRef = .error .multipleResources) ∧
    (∀ (fuel : Nat) (docs : List Document) (tgt : ReplTarget) (repl : Value),
      selectDocs docs tgt.objRef = [] →
      substitute fuel docs tgt repl = (docs, some .targetNotFound)) ∧
    (∀ (fuel : Nat) (docs : List Document) (tgt : ReplTarget) (repl : Value),
      selectDocs docs tgt.objRef ≠ [] →
      (∀ d ∈ docs, matchesSelector tgt.objRef d = true →
        (applyFieldRefs fuel d.root tgt.fieldRefs repl).2 = none) →
      substitute fuel docs tgt repl =
        (docs.map (fun d =>
          if matchesSelector tgt.objRef d then
            { d with root := (applyFieldRefs fuel d.root tgt.fieldRefs repl).1 }
          else d), none)) := by
  refine ⟨?_, ?_, ?_, ?_⟩
  · intro docs objRef fieldRef h
    simp [getReplacement, h]
  · intro docs objRef fieldRef h
    have hgt : (selectDocs docs objRef).length > 1 := by omega
    simp [getReplacement, hgt]
  · intro fuel docs tgt repl h
    simp [substitute, h]
  · intro fuel docs tgt repl h hall
    have hne : (selectDocs docs tgt.objRef).isEmpty = false := by
      simp [List.isEmpty_iff, h]
    simp [substitute, hne, substituteLoop_all_ok fuel tgt repl docs hall]

/-- C6 witness: an empty document set triggers both not-found errors,
and two matched targets are both mutated without error. -/
theorem c6_witness :
    getReplacement [] ⟨"", "", "", "n", ""⟩ "" = .error .sourceNotFound ∧
    substitute 3 [] ⟨⟨"", "", "", "n", ""⟩, ["a"]⟩ (.str "x") =
      ([], some .targetNotFound) ∧
    substitute 3
      [⟨"", "", "", "n", "", .map [("a", .str "old")]⟩,
       ⟨"", "", "", "n", "", .map [("a", .str "older")]⟩]
      ⟨⟨"", "", "", "n", ""⟩, ["a"]⟩ (.str "x") =
      ([⟨"", "", "", "n", "", .map [("a", .str "x")]⟩,
        ⟨"", "", "", "n", "", .map [("a", .str "x")]⟩], none) := by
  refine ⟨?_, ?_, ?_⟩
  · exact c6_source_target_cardinality.1 [] ⟨"", "", "", "n", ""⟩ "" rfl
  · exact c6_source_target_cardinality.2.2.1 3 [] ⟨⟨"", "", "", "n", ""⟩, ["a"]⟩ (.str "x") rfl
  · have h := c6_source_target_cardinality.2.2.2 3
      [⟨"", "", "", "n", "", .map [("a", .str "old")]⟩,
       ⟨"", "", "", "n", "", .map [("a", .str "older")]⟩]
      ⟨⟨"", "", "", "n", ""⟩, ["a"]⟩ (.str "x")
      (by intro hc; exact List.noConfusion hc)
      (by intro d hd hm; fin_cases hd <;> rfl)
    exact h.trans (by rfl)

